import Mathlib

/-!
Verification of the room-coordination and signaling-relay core of the
Lemon meeting server, embedded from `src/backend/server.js` (the variant
serving as the backend entry point: the global `rooms` Map, the
`join-room` handler, the per-join `messageHandler` / `disconnectHandler`
pair, the connection-level `send-message` handler, and `updateRoomCount`).

Conventions of the embedding:
* JS `Map` is an association list with unique keys maintained by the
  `mapSet` / `mapDelete` operations themselves.
* JS numbers holding occupant counts are `Int` (so `Math.max(0, …)`
  clamping is a real operation, not a vacuous one on `Nat`).
* A missing/undefined argument is represented by the empty string: the
  code's falsiness guards (`if (!roomId) …`) test for it.
* `socket.rooms` always contains `socket.id`; the code skips that
  element in its leave-previous-rooms loop, so the model stores only the
  remaining rooms in `roomsJoined`.
* Node's EventEmitter snapshots the listener list when an event fires,
  so every handler registered at emit time runs exactly once even if a
  handler removes itself mid-dispatch; `disconnect` folds over the full
  handler list accordingly.
-/

namespace Lemon

abbrev RoomId := String
abbrev ConnId := String

/-- JS `Map.get`: the value bound to `k`, if any. -/
def mapGet (m : List (RoomId × Int)) (k : RoomId) : Option Int :=
  match m with
  | [] => none
  | (k', v) :: rest => if k' = k then some v else mapGet rest k

/-- JS `Map.delete`: remove the binding for `k`. -/
def mapDelete (m : List (RoomId × Int)) (k : RoomId) : List (RoomId × Int) :=
  m.filter (fun p => p.1 ≠ k)

/-- JS `Map.set`: bind `k` to `v`, replacing any previous binding. -/
def mapSet (m : List (RoomId × Int)) (k : RoomId) (v : Int) : List (RoomId × Int) :=
  (k, v) :: mapDelete m k

/-- `rooms.get(roomId) || 0`: the occupant count the server reads for a room. -/
def roomCount (m : List (RoomId × Int)) (k : RoomId) : Int :=
  (mapGet m k).getD 0

/-- `function updateRoomCount(roomId, change)` of server.js: clamp the new
count at zero, delete the entry when it reaches zero, store it otherwise,
and return the new count.  `if (!roomId) return 0;` is the empty-string
guard. -/
def updateRoomCount (rooms : List (RoomId × Int)) (roomId : RoomId) (change : Int) :
    Int × List (RoomId × Int) :=
  if roomId = "" then (0, rooms)
  else
    let currentCount := roomCount rooms roomId
    let newCount := max 0 (currentCount + change)
    if newCount = 0 then (newCount, mapDelete rooms roomId)
    else (newCount, mapSet rooms roomId newCount)

/-- A chat message as relayed: an opaque body plus the `timestamp` field the
per-join handler overwrites (`{...message, timestamp: new Date()}`). -/
structure ChatMessage where
  body : String
  timestamp : Option Nat
deriving DecidableEq, Repr

/-- Payload of an emitted Socket.IO event. -/
inductive Payload where
  | user (id : String)
  | count (totalUsers : Int)
  | message (m : ChatMessage)
deriving DecidableEq, Repr

/-- Addressing of an emission: `io.to(room)` or `socket.to(room)` (room
minus the sender). -/
inductive Target where
  | room (r : RoomId)
  | roomExcept (r : RoomId) (s : ConnId)
deriving DecidableEq, Repr

/-- One `emit` performed by the server. -/
structure Emission where
  target : Target
  event : String
  payload : Payload
deriving DecidableEq, Repr

/-- The room a given emission is addressed to. -/
def Emission.roomOf (e : Emission) : RoomId :=
  match e.target with
  | Target.room r => r
  | Target.roomExcept r _ => r

/-- State the server keeps for one connection: the transport-level room set
(minus `socket.id`) and the per-join handler pairs still bound, in
registration order.  Each `join-room` appends one `(roomId, userId)` pair,
standing for the `messageHandler` closure over `roomId` and the
`disconnectHandler` closure over `(roomId, userId)` it registers. -/
structure Socket where
  id : ConnId
  roomsJoined : List RoomId
  joinHandlers : List (RoomId × String)
deriving DecidableEq, Repr

/-- Server state relevant to one connection: the global `rooms` map and
that connection's socket. -/
structure ServerState where
  rooms : List (RoomId × Int)
  socket : Socket
deriving DecidableEq, Repr

/-- A freshly connected socket: in no room, with only the connection-level
`send-message` handler (always present, not tracked per join). -/
def freshSocket (i : ConnId) : Socket :=
  { id := i, roomsJoined := [], joinHandlers := [] }

/-- The `join-room` handler of server.js.  Guard: `if (!roomId || !userId)
return;`.  Then it leaves every previous room (decrementing each count,
emitting nothing for them), joins the new room, increments its count,
emits `user-connected` to the room excluding the sender and `user-joined`
with the new count to the whole room, and registers a fresh
`messageHandler` / `disconnectHandler` pair without removing any previous
pair. -/
def joinRoom (st : ServerState) (roomId : RoomId) (userId : String) :
    ServerState × List Emission :=
  if roomId = "" ∨ userId = "" then (st, [])
  else
    let rooms1 := st.socket.roomsJoined.foldl
      (fun acc room => (updateRoomCount acc room (-1)).2) st.rooms
    let res := updateRoomCount rooms1 roomId 1
    let socket1 : Socket :=
      { st.socket with
        roomsJoined := [roomId]
        joinHandlers := st.socket.joinHandlers ++ [(roomId, userId)] }
    ({ rooms := res.2, socket := socket1 },
     [ { target := Target.roomExcept roomId st.socket.id
         event := "user-connected", payload := Payload.user userId },
       { target := Target.room roomId
         event := "user-joined", payload := Payload.count res.1 } ])

/-- Dispatch of a `send-message` event from this connection.  Listeners run
in registration order: first the connection-level handler
(`io.to(roomId).emit('receive-message', message)`, payload unmodified),
then every per-join `messageHandler`, each of which ignores the event
unless the addressed room equals its closure's `roomId` and otherwise
re-emits the message with `timestamp` overwritten by the server clock
`now`.  No state changes. -/
def sendMessage (st : ServerState) (roomId : RoomId) (m : ChatMessage) (now : Nat) :
    List Emission :=
  { target := Target.room roomId, event := "receive-message"
    payload := Payload.message m }
  :: st.socket.joinHandlers.filterMap (fun h =>
       if roomId = h.1 then
         some { target := Target.room h.1, event := "receive-message"
                payload := Payload.message { m with timestamp := some now } }
       else none)

/-- Dispatch of the `disconnect` event.  Every bound `disconnectHandler`
runs, in registration order: it emits `user-disconnected` to its room
excluding the sender, decrements that room's count, emits `user-joined`
with the new count, and unbinds itself and its paired `messageHandler`
(so afterwards no per-join handlers remain). -/
def disconnect (st : ServerState) : ServerState × List Emission :=
  let folded := st.socket.joinHandlers.foldl
    (fun (acc : List (RoomId × Int) × List Emission) h =>
      let res := updateRoomCount acc.1 h.1 (-1)
      (res.2, acc.2 ++
        [ { target := Target.roomExcept h.1 st.socket.id
            event := "user-disconnected", payload := Payload.user h.2 },
          { target := Target.room h.1
            event := "user-joined", payload := Payload.count res.1 } ]))
    (st.rooms, [])
  ({ rooms := folded.1
     socket := { st.socket with roomsJoined := [], joinHandlers := [] } },
   folded.2)

/-- Abstract join/leave operations on the room table, as the spec's
testable property quantifies over them: a join is `updateRoomCount r 1`,
a leave `updateRoomCount r (-1)`. -/
inductive RoomOp where
  | join (r : RoomId)
  | leave (r : RoomId)
deriving DecidableEq, Repr

/-- The room named by an operation. -/
def RoomOp.room : RoomOp → RoomId
  | RoomOp.join r => r
  | RoomOp.leave r => r

/-- Apply one abstract operation to the room table via `updateRoomCount`. -/
def applyOp (m : List (RoomId × Int)) : RoomOp → List (RoomId × Int)
  | RoomOp.join r => (updateRoomCount m r 1).2
  | RoomOp.leave r => (updateRoomCount m r (-1)).2

/-- Apply a sequence of abstract operations to the room table. -/
def applyOps (m : List (RoomId × Int)) (ops : List RoomOp) : List (RoomId × Int) :=
  ops.foldl applyOp m

/-- Specification-side count: the number of joins for room `r` not yet
matched by a leave for `r` (a leave matches the most recent unmatched
join; a leave with no unmatched join to match is dropped, so the tally
never goes negative). -/
def unmatchedJoins (ops : List RoomOp) (r : RoomId) : Int :=
  ops.foldl (fun c op =>
    match op with
    | RoomOp.join r' => if r' = r then c + 1 else c
    | RoomOp.leave r' => if r' = r then max 0 (c - 1) else c) 0

/-- Modelled from the spec: the relay-signal / call-signal handler is not
present under src/ — the media handshake is delegated to the external
PeerJS server mounted at /peerjs, so no repository code routes signal
payloads.  The spec's routing contract is therefore modelled directly from
its words: the core holds, per connection, the room it occupies and the
peer identifier it registered.  One signaling registry entry. -/
structure PeerEntry where
  conn : ConnId
  room : RoomId
  peerId : String
deriving DecidableEq, Repr

/-- Modelled from the spec: the signaling registry, naming for each live
connection its current room and peer identifier. -/
structure SignalState where
  peers : List PeerEntry
deriving DecidableEq, Repr

/-- Modelled from the spec: the room the sender connection currently
occupies, if any. -/
def roomOfConn (ps : List PeerEntry) (c : ConnId) : Option RoomId :=
  (ps.find? (fun e => decide (e.conn = c))).map (fun e => e.room)

/-- Modelled from the spec: the connection currently associated with a
peer identifier within a given room. -/
def findPeerInRoom (ps : List PeerEntry) (room : RoomId) (pid : String) :
    Option PeerEntry :=
  ps.find? (fun e => decide (e.room = room ∧ e.peerId = pid))

/-- Modelled from the spec: relay-signal(targetPeerId, signalPayload) —
an opaque pass-through that only routes the payload to the connection
currently associated with targetPeerId within the same room as the
sender; an unknown target (or an unjoined sender) is a silent no-op. -/
def relaySignal (st : SignalState) (sender : ConnId) (targetPeerId : String)
    (payload : String) : SignalState × List (ConnId × String) :=
  match roomOfConn st.peers sender with
  | none => (st, [])
  | some room =>
    match findPeerInRoom st.peers room targetPeerId with
    | none => (st, [])
    | some e => (st, [(e.conn, payload)])

/-! ### Basic lemmas about the Map embedding -/

theorem mapDelete_cons (p : RoomId × Int) (rest : List (RoomId × Int)) (k : RoomId) :
    mapDelete (p :: rest) k =
      if p.1 = k then mapDelete rest k else p :: mapDelete rest k := by
  by_cases h : p.1 = k
  · simp [mapDelete, List.filter_cons, h]
  · simp [mapDelete, List.filter_cons, h]

theorem mapGet_mapDelete_self (m : List (RoomId × Int)) (k : RoomId) :
    mapGet (mapDelete m k) k = none := by
  induction m with
  | nil => rfl
  | cons p rest ih =>
    rw [mapDelete_cons]
    by_cases h : p.1 = k
    · rw [if_pos h]; exact ih
    · rw [if_neg h]
      show mapGet (p :: mapDelete rest k) k = none
      rw [mapGet, if_neg h]
      exact ih

theorem mapGet_mapDelete_ne (m : List (RoomId × Int)) (k k' : RoomId) (h : k' ≠ k) :
    mapGet (mapDelete m k) k' = mapGet m k' := by
  induction m with
  | nil => rfl
  | cons p rest ih =>
    rw [mapDelete_cons]
    by_cases hp : p.1 = k
    · rw [if_pos hp, mapGet, if_neg (by rw [hp]; exact fun hk => h hk.symm)]
      exact ih
    · rw [if_neg hp]
      show mapGet (p :: mapDelete rest k) k' = mapGet (p :: rest) k'
      rw [mapGet, mapGet]
      by_cases hq : p.1 = k'
      · rw [if_pos hq, if_pos hq]
      · rw [if_neg hq, if_neg hq]; exact ih

theorem mapGet_mapSet_self (m : List (RoomId × Int)) (k : RoomId) (v : Int) :
    mapGet (mapSet m k v) k = some v := by
  rw [mapSet, mapGet, if_pos rfl]

theorem mapGet_mapSet_ne (m : List (RoomId × Int)) (k k' : RoomId) (v : Int) (h : k' ≠ k) :
    mapGet (mapSet m k v) k' = mapGet m k' := by
  rw [mapSet, mapGet, if_neg (fun hk => h hk.symm)]
  exact mapGet_mapDelete_ne m k k' h

theorem updateRoomCount_unfold (m : List (RoomId × Int)) (r : RoomId) (c : Int) :
    updateRoomCount m r c =
      if r = "" then (0, m)
      else if max 0 (roomCount m r + c) = 0
        then (max 0 (roomCount m r + c), mapDelete m r)
        else (max 0 (roomCount m r + c), mapSet m r (max 0 (roomCount m r + c))) := by
  rfl

theorem fst_updateRoomCount (m : List (RoomId × Int)) (r : RoomId) (c : Int) :
    (updateRoomCount m r c).1 = if r = "" then 0 else max 0 (roomCount m r + c) := by
  rw [updateRoomCount_unfold]
  by_cases h : r = ""
  · rw [if_pos h, if_pos h]
  · rw [if_neg h, if_neg h]
    by_cases h0 : max 0 (roomCount m r + c) = 0
    · rw [if_pos h0, h0]
    · rw [if_neg h0]

theorem roomCount_updateRoomCount_self (m : List (RoomId × Int)) (r : RoomId) (c : Int)
    (h : r ≠ "") :
    roomCount (updateRoomCount m r c).2 r = max 0 (roomCount m r + c) := by
  rw [updateRoomCount_unfold, if_neg h]
  by_cases h0 : max 0 (roomCount m r + c) = 0
  · rw [if_pos h0]
    show roomCount (mapDelete m r) r = _
    rw [roomCount, mapGet_mapDelete_self, h0]; rfl
  · rw [if_neg h0]
    show roomCount (mapSet m r (max 0 (roomCount m r + c))) r = _
    rw [roomCount, mapGet_mapSet_self]; rfl

theorem roomCount_updateRoomCount_ne (m : List (RoomId × Int)) (r r' : RoomId) (c : Int)
    (h : r' ≠ r) :
    roomCount (updateRoomCount m r c).2 r' = roomCount m r' := by
  rw [updateRoomCount_unfold]
  by_cases he : r = ""
  · rw [if_pos he]
  · rw [if_neg he]
    by_cases h0 : max 0 (roomCount m r + c) = 0
    · rw [if_pos h0]
      show roomCount (mapDelete m r) r' = _
      rw [roomCount, mapGet_mapDelete_ne m r r' h]; rfl
    · rw [if_neg h0]
      show roomCount (mapSet m r _) r' = _
      rw [roomCount, mapGet_mapSet_ne m r r' _ h]; rfl

theorem roomCount_nonneg_preserved (m : List (RoomId × Int)) (r : RoomId) (c : Int)
    (hm : ∀ k, 0 ≤ roomCount m k) (k : RoomId) :
    0 ≤ roomCount (updateRoomCount m r c).2 k := by
  by_cases hk : k = r
  · subst hk
    by_cases he : k = ""
    · rw [updateRoomCount_unfold, if_pos he]; exact hm k
    · rw [roomCount_updateRoomCount_self m k c he]
      exact le_max_left 0 _
  · rw [roomCount_updateRoomCount_ne m r k c hk]
    exact hm k

/-! ### Counts under abstract join/leave sequences -/

theorem roomCount_applyOp (m : List (RoomId × Int)) (op : RoomOp) (r : RoomId)
    (h : r ≠ "") (hnn : 0 ≤ roomCount m r) :
    roomCount (applyOp m op) r =
      match op with
      | RoomOp.join r' => if r' = r then roomCount m r + 1 else roomCount m r
      | RoomOp.leave r' => if r' = r then max 0 (roomCount m r - 1) else roomCount m r := by
  cases op with
  | join r' =>
    show roomCount (applyOp m (RoomOp.join r')) r =
      if r' = r then roomCount m r + 1 else roomCount m r
    by_cases hr : r' = r
    · subst hr
      rw [applyOp, roomCount_updateRoomCount_self m r' 1 h, if_pos rfl]
      exact max_eq_right (by omega)
    · rw [applyOp, roomCount_updateRoomCount_ne m r' r 1 (fun hk => hr hk.symm), if_neg hr]
  | leave r' =>
    show roomCount (applyOp m (RoomOp.leave r')) r =
      if r' = r then max 0 (roomCount m r - 1) else roomCount m r
    by_cases hr : r' = r
    · subst hr
      rw [applyOp, roomCount_updateRoomCount_self m r' (-1) h, if_pos rfl]
      norm_num [sub_eq_add_neg]
    · rw [applyOp, roomCount_updateRoomCount_ne m r' r (-1) (fun hk => hr hk.symm), if_neg hr]

theorem applyOps_nonneg (ops : List RoomOp) (m : List (RoomId × Int))
    (hm : ∀ k, 0 ≤ roomCount m k) (k : RoomId) :
    0 ≤ roomCount (applyOps m ops) k := by
  induction ops generalizing m with
  | nil => exact hm k
  | cons op rest ih =>
    cases op with
    | join r => exact ih _ (roomCount_nonneg_preserved m r 1 hm)
    | leave r => exact ih _ (roomCount_nonneg_preserved m r (-1) hm)

theorem roomCount_applyOps (ops : List RoomOp) (m : List (RoomId × Int)) (r : RoomId)
    (h : r ≠ "") (hnn : ∀ k, 0 ≤ roomCount m k) :
    roomCount (applyOps m ops) r =
      ops.foldl (fun c op =>
        match op with
        | RoomOp.join r' => if r' = r then c + 1 else c
        | RoomOp.leave r' => if r' = r then max 0 (c - 1) else c) (roomCount m r) := by
  induction ops generalizing m with
  | nil => rfl
  | cons op rest ih =>
    rw [applyOps, List.foldl_cons, List.foldl_cons]
    have hstep := roomCount_applyOp m op r h (hnn r)
    have hpres : ∀ k, 0 ≤ roomCount (applyOp m op) k := by
      intro k
      cases op with
      | join r' => exact roomCount_nonneg_preserved m r' 1 hnn k
      | leave r' => exact roomCount_nonneg_preserved m r' (-1) hnn k
    have := ih (applyOp m op) hpres
    rw [applyOps] at this
    rw [this, hstep]

theorem roomCount_nil (k : RoomId) : roomCount ([] : List (RoomId × Int)) k = 0 := rfl

/-- C3: For every sequence of join/leave operations applied to the empty room
table through `updateRoomCount`, the count stored/returned for a room
equals the number of joins for that room not yet matched by a leave, and
the count is never negative after any initial segment of the sequence. -/
theorem count_eq_unmatchedJoins_and_nonneg (ops : List RoomOp) (r : RoomId)
    (h : r ≠ "") :
    roomCount (applyOps [] ops) r = unmatchedJoins ops r ∧
    ∀ p q : List RoomOp, ops = p ++ q → 0 ≤ roomCount (applyOps [] p) r := by
  constructor
  · rw [unmatchedJoins,
      roomCount_applyOps ops [] r h (fun k => le_refl 0), roomCount_nil]
  · intro p q hpq
    exact applyOps_nonneg p [] (fun k => le_refl 0) r

/-- Witness for C3 at the sequence join, join, leave, leave, leave, join on
room a: the final count equals the unmatched-join tally. -/
theorem count_eq_unmatchedJoins_witness :
    roomCount (applyOps []
        [RoomOp.join "a", RoomOp.join "a", RoomOp.leave "a",
         RoomOp.leave "a", RoomOp.leave "a", RoomOp.join "a"]) "a" =
      unmatchedJoins
        [RoomOp.join "a", RoomOp.join "a", RoomOp.leave "a",
         RoomOp.leave "a", RoomOp.leave "a", RoomOp.join "a"] "a" :=
  (count_eq_unmatchedJoins_and_nonneg
    [RoomOp.join "a", RoomOp.join "a", RoomOp.leave "a",
     RoomOp.leave "a", RoomOp.leave "a", RoomOp.join "a"] "a" (by decide)).1

/-! ### Eager garbage collection of empty rooms -/

theorem mem_of_mem_mapDelete (m : List (RoomId × Int)) (k : RoomId) (p : RoomId × Int)
    (h : p ∈ mapDelete m k) : p ∈ m :=
  List.mem_of_mem_filter h

theorem updateRoomCount_pos_entries (m : List (RoomId × Int)) (r : RoomId) (c : Int)
    (hm : ∀ p ∈ m, 0 < p.2) :
    ∀ p ∈ (updateRoomCount m r c).2, 0 < p.2 := by
  intro p hp
  rw [updateRoomCount_unfold] at hp
  by_cases he : r = ""
  · rw [if_pos he] at hp; exact hm p hp
  · rw [if_neg he] at hp
    by_cases h0 : max 0 (roomCount m r + c) = 0
    · rw [if_pos h0] at hp
      exact hm p (mem_of_mem_mapDelete m r p hp)
    · rw [if_neg h0] at hp
      rcases List.mem_cons.mp hp with hEq | hMem
      · rw [hEq]
        exact lt_of_le_of_ne (le_max_left 0 _) (fun hk => h0 hk.symm)
      · exact hm p (mem_of_mem_mapDelete m r p hMem)

theorem applyOps_pos_entries (ops : List RoomOp) (m : List (RoomId × Int))
    (hm : ∀ p ∈ m, 0 < p.2) :
    ∀ p ∈ applyOps m ops, 0 < p.2 := by
  induction ops generalizing m with
  | nil => exact hm
  | cons op rest ih =>
    cases op with
    | join r => exact ih _ (updateRoomCount_pos_entries m r 1 hm)
    | leave r => exact ih _ (updateRoomCount_pos_entries m r (-1) hm)

/-- C4: After any sequence of join/leave operations starting from the empty
room table, every surviving entry has a strictly positive count (a room
with zero occupants never persists); and when the last occupant of a room
leaves, its entry is deleted at once, a count query then reads 0, and a
fresh join recreates the room with exactly the entry count 1, carrying no
state from the previous occupancy. -/
theorem no_zero_occupant_room_persists (ops : List RoomOp)
    (m : List (RoomId × Int)) (r : RoomId) (h : r ≠ "") (h1 : roomCount m r = 1) :
    (∀ p ∈ applyOps [] ops, 0 < p.2) ∧
    mapGet (updateRoomCount m r (-1)).2 r = none ∧
    roomCount (updateRoomCount m r (-1)).2 r = 0 ∧
    (updateRoomCount (updateRoomCount m r (-1)).2 r 1).1 = 1 ∧
    mapGet (updateRoomCount (updateRoomCount m r (-1)).2 r 1).2 r = some 1 := by
  have hleave : (updateRoomCount m r (-1)).2 = mapDelete m r := by
    rw [updateRoomCount_unfold, if_neg h, h1]
    norm_num
  have hgone : mapGet (updateRoomCount m r (-1)).2 r = none := by
    rw [hleave]; exact mapGet_mapDelete_self m r
  have hzero : roomCount (updateRoomCount m r (-1)).2 r = 0 := by
    rw [roomCount, hgone]; rfl
  have hrejoin : updateRoomCount (updateRoomCount m r (-1)).2 r 1 =
      (1, mapSet (updateRoomCount m r (-1)).2 r 1) := by
    rw [updateRoomCount_unfold, if_neg h, hzero]
    norm_num
  refine ⟨applyOps_pos_entries ops [] (by intro p hp; cases hp), hgone, hzero, ?_, ?_⟩
  · rw [hrejoin]
  · rw [hrejoin]
    exact mapGet_mapSet_self _ r 1

/-- Witness for C4: room a holding its last occupant, who leaves; the entry
vanishes, the count reads 0, and a fresh join stores exactly count 1. -/
theorem no_zero_occupant_room_persists_witness :
    mapGet (updateRoomCount [("a", 1)] "a" (-1)).2 "a" = none ∧
    roomCount (updateRoomCount [("a", 1)] "a" (-1)).2 "a" = 0 ∧
    (updateRoomCount (updateRoomCount [("a", 1)] "a" (-1)).2 "a" 1).1 = 1 ∧
    mapGet (updateRoomCount (updateRoomCount [("a", 1)] "a" (-1)).2 "a" 1).2 "a" =
      some 1 :=
  (no_zero_occupant_room_persists [RoomOp.join "b", RoomOp.leave "b"]
    [("a", 1)] "a" (by decide) (by decide)).2

/-! ### Leave is an unconditional clamped decrement -/

theorem mapDelete_of_not_mem (m : List (RoomId × Int)) (k : RoomId)
    (h : mapGet m k = none) : mapDelete m k = m := by
  induction m with
  | nil => rfl
  | cons p rest ih =>
    rw [mapGet] at h
    by_cases hp : p.1 = k
    · rw [if_pos hp] at h; cases h
    · rw [if_neg hp] at h
      rw [mapDelete_cons, if_neg hp, ih h]

/-- Counterexample to C2 at room a with count 2: the disconnect-path leave
(`updateRoomCount(roomId, -1)`) applied twice does not yield the state of
applying it once (the entry vanishes instead of holding 1), and the second
leave — issued when the connection is no longer in the room — returns a
changed count instead of the unchanged one. -/
theorem leave_twice_differs_cex :
    (updateRoomCount (updateRoomCount [("a", 2)] "a" (-1)).2 "a" (-1)).2 ≠
      (updateRoomCount [("a", 2)] "a" (-1)).2 ∧
    (updateRoomCount (updateRoomCount [("a", 2)] "a" (-1)).2 "a" (-1)).1 ≠
      (updateRoomCount [("a", 2)] "a" (-1)).1 := by
  decide

/-- C2 (amended): the room table tracks only counts, never membership, so
the leave/disconnect transition decrements unconditionally: one leave
returns `max 0 (c-1)`, a second leave drives the count to `max 0 (c-2)`
(idempotent only when the starting count is at most 1), and a leave naming
a room absent from the table returns 0 and leaves the table unchanged. -/
theorem leave_unconditional_decrement (m : List (RoomId × Int)) (r : RoomId)
    (h : r ≠ "") :
    (updateRoomCount m r (-1)).1 = max 0 (roomCount m r - 1) ∧
    roomCount (updateRoomCount (updateRoomCount m r (-1)).2 r (-1)).2 r =
      max 0 (roomCount m r - 2) ∧
    (mapGet m r = none → updateRoomCount m r (-1) = (0, m)) := by
  refine ⟨?_, ?_, ?_⟩
  · rw [fst_updateRoomCount, if_neg h, sub_eq_add_neg]
  · rw [roomCount_updateRoomCount_self _ r (-1) h,
      roomCount_updateRoomCount_self m r (-1) h]
    rcases le_total (roomCount m r) 1 with hle | hge
    · rw [max_eq_left (by omega : roomCount m r + -1 ≤ 0)]
      rw [show (0 : Int) + -1 = -1 by norm_num]
      rw [max_eq_left (by norm_num : (-1 : Int) ≤ 0),
        max_eq_left (by omega : roomCount m r - 2 ≤ 0)]
    · rw [max_eq_right (by omega : (0 : Int) ≤ roomCount m r + -1)]
      rw [show roomCount m r + -1 + -1 = roomCount m r - 2 by ring]
  · intro hnone
    have hc0 : roomCount m r = 0 := by rw [roomCount, hnone]; rfl
    have hdel := mapDelete_of_not_mem m r hnone
    rw [updateRoomCount_unfold, if_neg h, hc0, hdel]
    norm_num

/-- Witness for the amended C2 at room a with count 2: one leave returns 1,
a second leave reaches 0. -/
theorem leave_unconditional_decrement_witness :
    (updateRoomCount [("a", 2)] "a" (-1)).1 = max 0 (roomCount [("a", 2)] "a" - 1) ∧
    roomCount (updateRoomCount (updateRoomCount [("a", 2)] "a" (-1)).2 "a" (-1)).2 "a" =
      max 0 (roomCount [("a", 2)] "a" - 2) :=
  ⟨(leave_unconditional_decrement [("a", 2)] "a" (by decide)).1,
   (leave_unconditional_decrement [("a", 2)] "a" (by decide)).2.1⟩

/-! ### Re-joining the current room -/

/-- C10: re-joining the room a connection is already counted in is
count-neutral: the implicit leave decrements the count and the join puts it
back, so for any starting count c at least 1 the final count is c. -/
theorem rejoin_count_neutral (st : ServerState) (R : RoomId) (u : String) (c : Int)
    (hR : R ≠ "") (hu : u ≠ "") (hmem : st.socket.roomsJoined = [R])
    (hc : roomCount st.rooms R = c) (h1 : 1 ≤ c) :
    roomCount (joinRoom st R u).1.rooms R = c := by
  have hguard : ¬(R = "" ∨ u = "") := by
    rintro (hbad | hbad)
    · exact hR hbad
    · exact hu hbad
  rw [joinRoom, if_neg hguard]
  dsimp only
  rw [hmem, List.foldl_cons, List.foldl_nil]
  rw [roomCount_updateRoomCount_self _ R 1 hR,
    roomCount_updateRoomCount_self st.rooms R (-1) hR, hc]
  rw [max_eq_right (by omega : (0 : Int) ≤ c + -1)]
  rw [max_eq_right (by omega : (0 : Int) ≤ c + -1 + 1)]
  omega

/-- Witness for C10: a connection alone in room r (count 1) re-joins r; the
count remains 1. -/
theorem rejoin_count_neutral_witness :
    roomCount (joinRoom
      { rooms := [("r", 1)]
        socket := { id := "s", roomsJoined := ["r"], joinHandlers := [("r", "u")] } }
      "r" "u").1.rooms "r" = 1 :=
  rejoin_count_neutral _ "r" "u" 1 (by decide) (by decide) rfl rfl (by norm_num)

/-! ### The implicit leave on switching rooms -/

/-- Counterexample to C5: connection s is in room a (count 2, one other
occupant) and joins room b; the join's emission trace contains no event
addressed to room a at all — no departure announcement and no updated
count reach a's remaining member — even though a's count was silently
decremented to 1. -/
theorem implicit_leave_emits_nothing_cex :
    ((joinRoom
      { rooms := [("a", 2)]
        socket := { id := "s", roomsJoined := ["a"], joinHandlers := [("a", "u")] } }
      "b" "u").2.filter (fun e => decide (Emission.roomOf e = "a"))) = [] ∧
    roomCount (joinRoom
      { rooms := [("a", 2)]
        socket := { id := "s", roomsJoined := ["a"], joinHandlers := [("a", "u")] } }
      "b" "u").1.rooms "a" = 1 := by
  decide

/-- C5 (amended): when a connection in room A joins a different room B, the
core decrements A's count first (the implicit leave) and only then
increments B's, but the leave is silent: every event emitted by the join is
addressed to room B, so A's remaining members receive no departure
announcement and no updated occupant count at that moment. -/
theorem implicit_leave_decrements_silently (st : ServerState) (A B : RoomId)
    (u : String) (hA : A ≠ "") (hB : B ≠ "") (hu : u ≠ "") (hAB : A ≠ B)
    (hmem : st.socket.roomsJoined = [A]) :
    roomCount (joinRoom st B u).1.rooms A = max 0 (roomCount st.rooms A - 1) ∧
    ∀ e ∈ (joinRoom st B u).2, Emission.roomOf e = B := by
  have hguard : ¬(B = "" ∨ u = "") := by
    rintro (hbad | hbad)
    · exact hB hbad
    · exact hu hbad
  rw [joinRoom, if_neg hguard]
  dsimp only
  constructor
  · rw [hmem, List.foldl_cons, List.foldl_nil]
    rw [roomCount_updateRoomCount_ne _ B A 1 hAB,
      roomCount_updateRoomCount_self st.rooms A (-1) hA, sub_eq_add_neg]
  · intro e he
    rcases List.mem_cons.mp he with h1 | h2
    · rw [h1]; rfl
    · rcases List.mem_cons.mp h2 with h3 | h4
      · rw [h3]; rfl
      · cases h4

/-- Witness for the amended C5: connection t in room a (count 3) joins room
b; a's count drops to 2 and every emitted event is addressed to b. -/
theorem implicit_leave_decrements_silently_witness :
    roomCount (joinRoom
      { rooms := [("a", 3)]
        socket := { id := "t", roomsJoined := ["a"], joinHandlers := [("a", "v")] } }
      "b" "v").1.rooms "a" = max 0 (roomCount [("a", 3)] "a" - 1) :=
  (implicit_leave_decrements_silently
    { rooms := [("a", 3)]
      socket := { id := "t", roomsJoined := ["a"], joinHandlers := [("a", "v")] } }
    "a" "b" "v" (by decide) (by decide) (by decide) (by decide) rfl).1

/-! ### Timestamps on relayed chat messages -/

/-- Counterexample to C7: a member of room a sends a message carrying
client timestamp 5 while the server clock reads 99; the first
receive-message delivered (from the connection-level handler) still
carries the client's timestamp 5, not a core-assigned one. -/
theorem connection_level_relay_keeps_client_timestamp_cex :
    (sendMessage
      { rooms := [("a", 1)]
        socket := { id := "s", roomsJoined := ["a"], joinHandlers := [("a", "u")] } }
      "a" { body := "hi", timestamp := some 5 } 99).head? =
      some { target := Target.room "a", event := "receive-message"
             payload := Payload.message { body := "hi", timestamp := some 5 } } ∧
    ∃ e ∈ (sendMessage
      { rooms := [("a", 1)]
        socket := { id := "s", roomsJoined := ["a"], joinHandlers := [("a", "u")] } }
      "a" { body := "hi", timestamp := some 5 } 99),
      e.payload = Payload.message { body := "hi", timestamp := some 5 } := by
  decide

/-- C7 (amended): only the per-join messageHandler assigns the server
timestamp, overwriting any client-supplied one; the connection-level
handler re-broadcasts the message completely unmodified, so each
send-message yields one unstamped copy followed only by copies whose
timestamp is the server's relay-time value. -/
theorem per_join_relay_stamps_server_timestamp (st : ServerState) (R : RoomId)
    (m : ChatMessage) (now : Nat) :
    (sendMessage st R m now).head? =
      some { target := Target.room R, event := "receive-message"
             payload := Payload.message m } ∧
    ∀ e ∈ (sendMessage st R m now).tail,
      e = { target := Target.room R, event := "receive-message"
            payload := Payload.message { m with timestamp := some now } } := by
  constructor
  · rfl
  · intro e he
    rw [sendMessage] at he
    simp only [List.tail_cons] at he
    rcases List.mem_filterMap.mp he with ⟨h, hmem2, hf⟩
    by_cases hr : R = h.1
    · rw [if_pos hr] at hf
      have hx := Option.some.inj hf
      rw [← hx, ← hr]
    · rw [if_neg hr] at hf
      cases hf

/-- Witness for the amended C7: a member of room a sends a message with
client timestamp 5; the first delivered copy is the unmodified message. -/
theorem per_join_relay_stamps_server_timestamp_witness :
    (sendMessage
      { rooms := [("a", 1)]
        socket := { id := "z", roomsJoined := ["a"], joinHandlers := [("a", "u")] } }
      "a" { body := "yo", timestamp := some 5 } 42).head? =
      some { target := Target.room "a", event := "receive-message"
             payload := Payload.message { body := "yo", timestamp := some 5 } } :=
  (per_join_relay_stamps_server_timestamp
    { rooms := [("a", 1)]
      socket := { id := "z", roomsJoined := ["a"], joinHandlers := [("a", "u")] } }
    "a" { body := "yo", timestamp := some 5 } 42).1

/-! ### Membership gating of chat relay -/

/-- Counterexample to C8: a freshly connected socket that never joined any
room sends a message addressed to room a; far from being silently ignored,
the connection-level handler relays it to room a unmodified. -/
theorem nonmember_message_relayed_cex :
    sendMessage { rooms := [("a", 1)], socket := freshSocket "s" } "a"
        { body := "hi", timestamp := none } 7 =
      [ { target := Target.room "a", event := "receive-message"
          payload := Payload.message { body := "hi", timestamp := none } } ] ∧
    sendMessage { rooms := [("a", 1)], socket := freshSocket "s" } "a"
        { body := "hi", timestamp := none } 7 ≠ [] := by
  decide

/-- C8 (amended): the connection-level send-message handler performs no
membership check: every send-message is relayed once, unmodified, to the
addressed room whether or not the sender is a member; only the per-join
stamped relay is gated (on the addressed room matching a live join
handler), so a sender with no live join handler for the room still causes
exactly the one unmodified delivery. -/
theorem sendMessage_relays_regardless_of_membership (st : ServerState) (R : RoomId)
    (m : ChatMessage) (now : Nat) (h : ∀ p ∈ st.socket.joinHandlers, p.1 ≠ R) :
    sendMessage st R m now =
      [ { target := Target.room R, event := "receive-message"
          payload := Payload.message m } ] := by
  rw [sendMessage]
  have hnil : st.socket.joinHandlers.filterMap (fun p =>
      if R = p.1 then
        some { target := Target.room p.1, event := "receive-message"
               payload := Payload.message { m with timestamp := some now } }
      else none) = ([] : List Emission) := by
    rw [List.filterMap_eq_nil_iff]
    intro a ha
    rw [if_neg (fun hra => h a ha hra.symm)]
  rw [hnil]

/-- Witness for the amended C8: a never-joined socket's message to room a is
relayed once, unmodified. -/
theorem sendMessage_relays_regardless_of_membership_witness :
    sendMessage { rooms := [("a", 2)], socket := freshSocket "x" } "a"
        { body := "m", timestamp := some 3 } 9 =
      [ { target := Target.room "a", event := "receive-message"
          payload := Payload.message { body := "m", timestamp := some 3 } } ] :=
  sendMessage_relays_regardless_of_membership _ "a" _ 9 (by decide)

/-! ### Accumulated handlers and duplicate delivery -/

theorem stampedRelays_length (l : List (RoomId × String)) (R : RoomId)
    (m : ChatMessage) (now : Nat) :
    (l.filterMap (fun h =>
       if R = h.1 then
         some { target := Target.room h.1, event := "receive-message"
                payload := Payload.message { m with timestamp := some now } }
       else none) : List Emission).length
      = l.countP (fun h => decide (R = h.1)) := by
  induction l with
  | nil => rfl
  | cons a l ih =>
    rw [List.filterMap_cons, List.countP_cons]
    by_cases hA : R = a.1
    · rw [if_pos hA, List.length_cons, ih, if_pos (by rw [hA]; exact decide_eq_true rfl)]
    · rw [if_neg hA, ih, if_neg (by rw [decide_eq_true_eq]; exact hA)]
      omega

theorem joinRoom_joinHandlers (st : ServerState) (R : RoomId) (u : String)
    (hR : R ≠ "") (hu : u ≠ "") :
    (joinRoom st R u).1.socket.joinHandlers =
      st.socket.joinHandlers ++ [(R, u)] := by
  have hguard : ¬(R = "" ∨ u = "") := by
    rintro (hbad | hbad)
    · exact hR hbad
    · exact hu hbad
  rw [joinRoom, if_neg hguard]

/-- C9: a connection with at least one completed join for room R (and no
intervening disconnect, so its per-join handler pairs are still bound)
sends one message to R: the room receives 1 + (number of live join
handlers for R) receive-message emissions — at least two — the first being
the payload unchanged from the connection-level handler and every further
one the per-join stamped copy; and one more completed join for R adds
exactly one further delivery per message. -/
theorem duplicate_delivery_per_join (st : ServerState) (R : RoomId)
    (m : ChatMessage) (now : Nat) (u : String) (hR : R ≠ "") (hu : u ≠ "")
    (h : 1 ≤ st.socket.joinHandlers.countP (fun p => decide (R = p.1))) :
    (sendMessage st R m now).length =
      1 + st.socket.joinHandlers.countP (fun p => decide (R = p.1)) ∧
    2 ≤ (sendMessage st R m now).length ∧
    (sendMessage st R m now).head? =
      some { target := Target.room R, event := "receive-message"
             payload := Payload.message m } ∧
    (∀ e ∈ (sendMessage st R m now).tail,
       e.payload = Payload.message { m with timestamp := some now }) ∧
    (sendMessage (joinRoom st R u).1 R m now).length =
      (sendMessage st R m now).length + 1 := by
  have hlen : ∀ s : ServerState, (sendMessage s R m now).length =
      1 + s.socket.joinHandlers.countP (fun p => decide (R = p.1)) := by
    intro s
    rw [sendMessage, List.length_cons, stampedRelays_length]
    omega
  refine ⟨hlen st, by rw [hlen st]; omega, rfl, ?_, ?_⟩
  · intro e he
    rw [sendMessage] at he
    simp only [List.tail_cons] at he
    rcases List.mem_filterMap.mp he with ⟨p, hmem2, hf⟩
    by_cases hr : R = p.1
    · rw [if_pos hr] at hf
      rw [← Option.some.inj hf]
    · rw [if_neg hr] at hf
      cases hf
  · rw [hlen st, hlen (joinRoom st R u).1,
      joinRoom_joinHandlers st R u hR hu, List.countP_append]
    simp only [List.countP_cons, List.countP_nil]
    simp
    omega

/-- Witness for C9: a connection with one live join handler for room a
sends a message to a; the room receives exactly two emissions, the
unchanged copy first, and a further join to a raises the delivery count to
three. -/
theorem duplicate_delivery_per_join_witness :
    (sendMessage
      { rooms := [("a", 1)]
        socket := { id := "w", roomsJoined := ["a"], joinHandlers := [("a", "u")] } }
      "a" { body := "hey", timestamp := none } 4).length =
      1 + (List.countP (fun p => decide ("a" = p.1)) [("a", "u")]) ∧
    2 ≤ (sendMessage
      { rooms := [("a", 1)]
        socket := { id := "w", roomsJoined := ["a"], joinHandlers := [("a", "u")] } }
      "a" { body := "hey", timestamp := none } 4).length ∧
    (sendMessage
      { rooms := [("a", 1)]
        socket := { id := "w", roomsJoined := ["a"], joinHandlers := [("a", "u")] } }
      "a" { body := "hey", timestamp := none } 4).head? =
      some { target := Target.room "a", event := "receive-message"
             payload := Payload.message { body := "hey", timestamp := none } } ∧
    (sendMessage (joinRoom
      { rooms := [("a", 1)]
        socket := { id := "w", roomsJoined := ["a"], joinHandlers := [("a", "u")] } }
      "a" "u").1 "a" { body := "hey", timestamp := none } 4).length =
      (sendMessage
      { rooms := [("a", 1)]
        socket := { id := "w", roomsJoined := ["a"], joinHandlers := [("a", "u")] } }
      "a" { body := "hey", timestamp := none } 4).length + 1 := by
  have h := duplicate_delivery_per_join
    { rooms := [("a", 1)]
      socket := { id := "w", roomsJoined := ["a"], joinHandlers := [("a", "u")] } }
    "a" { body := "hey", timestamp := none } 4 "u" (by decide) (by decide) (by decide)
  exact ⟨h.1, h.2.1, h.2.2.1, h.2.2.2.2⟩

/-! ### Stale handlers across repeated joins -/

/-- C1 fails on the code: starting from room a already holding one other
occupant, connection s joins a and then joins b.  The room-a handler pair
is still bound after the second join (first conjunct), a is still occupied
by the other connection (count 1, second conjunct), a message addressed to
a is nevertheless relayed twice — once by the connection-level handler and
once by the stale room-a messageHandler (third conjunct) — and the
disconnect runs the stale room-a disconnectHandler, decrementing a a
second time and deleting it even though its other occupant remains
(fourth conjunct). -/
theorem stale_room_handlers_persist_and_double_decrement :
    (joinRoom (joinRoom { rooms := [("a", 1)], socket := freshSocket "s" } "a" "u").1
        "b" "u").1.socket.joinHandlers = [("a", "u"), ("b", "u")] ∧
    roomCount (joinRoom (joinRoom { rooms := [("a", 1)], socket := freshSocket "s" }
        "a" "u").1 "b" "u").1.rooms "a" = 1 ∧
    (sendMessage (joinRoom (joinRoom { rooms := [("a", 1)], socket := freshSocket "s" }
        "a" "u").1 "b" "u").1 "a" { body := "hi", timestamp := none } 3).length = 2 ∧
    roomCount (disconnect (joinRoom (joinRoom
        { rooms := [("a", 1)], socket := freshSocket "s" } "a" "u").1
        "b" "u").1).1.rooms "a" = 0 := by
  decide

/-! ### Relay-signal routing (spec-modelled) -/

/-- C6: relay-signal never changes state and delivers at most one emission;
every delivered payload is the sender's payload unmodified, addressed to a
registered connection holding the target peer identifier in the sender's
room; when the sender's room has no connection for the target (or the
sender occupies no room), nothing is emitted — a silent no-op. -/
theorem relaySignal_routing (st : SignalState) (sender : ConnId)
    (target payload : String) :
    (relaySignal st sender target payload).1 = st ∧
    (relaySignal st sender target payload).2.length ≤ 1 ∧
    (∀ d ∈ (relaySignal st sender target payload).2,
       d.2 = payload ∧
       ∃ e ∈ st.peers, d.1 = e.conn ∧ e.peerId = target ∧
         roomOfConn st.peers sender = some e.room) ∧
    (∀ room, roomOfConn st.peers sender = some room →
       findPeerInRoom st.peers room target = none →
       (relaySignal st sender target payload).2 = []) ∧
    (roomOfConn st.peers sender = none →
       (relaySignal st sender target payload).2 = []) ∧
    (∀ room e, roomOfConn st.peers sender = some room →
       findPeerInRoom st.peers room target = some e →
       (relaySignal st sender target payload).2 = [(e.conn, payload)]) := by
  cases h1 : roomOfConn st.peers sender with
  | none =>
    have hred : relaySignal st sender target payload = (st, []) := by
      rw [relaySignal, h1]
    refine ⟨by rw [hred], by rw [hred]; exact Nat.zero_le 1, ?_, ?_, ?_, ?_⟩
    · intro d hd
      rw [hred] at hd
      cases hd
    · intro room hroom
      exact Option.noConfusion hroom
    · intro _
      rw [hred]
    · intro room e hroom
      exact Option.noConfusion hroom
  | some room =>
    have hred1 : relaySignal st sender target payload =
        (match findPeerInRoom st.peers room target with
         | none => (st, [])
         | some e => (st, [(e.conn, payload)])) := by
      rw [relaySignal, h1]
    cases h2 : findPeerInRoom st.peers room target with
    | none =>
      have hred : relaySignal st sender target payload = (st, []) := by
        rw [hred1, h2]
      refine ⟨by rw [hred], by rw [hred]; exact Nat.zero_le 1, ?_, ?_, ?_, ?_⟩
      · intro d hd
        rw [hred] at hd
        cases hd
      · intro room2 hroom2 hfind2
        rw [hred]
      · intro hnone
        exact Option.noConfusion hnone
      · intro room2 e hroom2 hfind2
        have hr2 : room2 = room := (Option.some.inj hroom2).symm
        rw [hr2, h2] at hfind2
        cases hfind2
    | some e =>
      have hmeme : e ∈ st.peers := List.mem_of_find?_eq_some h2
      have hprop : e.room = room ∧ e.peerId = target := by
        have hfs := List.find?_some h2
        exact of_decide_eq_true hfs
      have hred : relaySignal st sender target payload = (st, [(e.conn, payload)]) := by
        rw [hred1, h2]
      refine ⟨by rw [hred], by rw [hred]; exact Nat.le_refl 1, ?_, ?_, ?_, ?_⟩
      · intro d hd
        rw [hred] at hd
        rcases List.mem_cons.mp hd with hE | hE
        · rw [hE]
          exact ⟨rfl, e, hmeme, rfl, hprop.2, by rw [hprop.1]⟩
        · cases hE
      · intro room2 hroom2 hfind2
        have hr2 : room2 = room := (Option.some.inj hroom2).symm
        rw [hr2, h2] at hfind2
        cases hfind2
      · intro hnone
        exact Option.noConfusion hnone
      · intro room2 e2 hroom2 hfind2
        have hr2 : room2 = room := (Option.some.inj hroom2).symm
        rw [hr2, h2] at hfind2
        rw [hred, ← Option.some.inj hfind2]

/-- Witness for C6: two peers share room r1; relaying a signal from c1 to
peer p2 leaves the registry unchanged and emits at most one delivery. -/
theorem relaySignal_routing_witness :
    (relaySignal
      { peers := [ { conn := "c1", room := "r1", peerId := "p1" },
                   { conn := "c2", room := "r1", peerId := "p2" } ] }
      "c1" "p2" "sig").1 =
      { peers := [ { conn := "c1", room := "r1", peerId := "p1" },
                   { conn := "c2", room := "r1", peerId := "p2" } ] } ∧
    (relaySignal
      { peers := [ { conn := "c1", room := "r1", peerId := "p1" },
                   { conn := "c2", room := "r1", peerId := "p2" } ] }
      "c1" "p2" "sig").2.length ≤ 1 :=
  ⟨(relaySignal_routing
      { peers := [ { conn := "c1", room := "r1", peerId := "p1" },
                   { conn := "c2", room := "r1", peerId := "p2" } ] }
      "c1" "p2" "sig").1,
   (relaySignal_routing
      { peers := [ { conn := "c1", room := "r1", peerId := "p1" },
                   { conn := "c2", room := "r1", peerId := "p2" } ] }
      "c1" "p2" "sig").2.1⟩

end Lemon
